import Mathlib

namespace GoLog

/-!
Shallow embedding of the `log` package (core logger, `src/log.go`) and its
console handler (second file of the repository, `package console`).

Modelling conventions:
* Go channels are identified by natural-number ids; the side effects of
  `HandleEntry`, `Fatal`, `Panic`, `RegisterHandler`, ... are recorded as a
  sequential trace of `Action`s in the order the Go statements execute them
  (`sync.WaitGroup.Add` = `Action.setCounter`, each channel send =
  `Action.send`, `WaitGroup.Wait` = `Action.wait` — the point at which all
  recipients have signalled completion — pool `Put`s = `Action.putField` /
  `Action.putEntry`, `os.Exit` = `Action.exit`, Go `panic` = `Action.raise`,
  `Handler.Run()` = `Action.runH`).
* `time.Time` is external standard-library code; a time instant is
  represented by the behaviour of its `Format` method (`GoTime.format`).
* `fmt.Sprint` / `fmt.Sprintf` are external standard-library rendering; the
  facade embeddings take the already-rendered message string as argument.
* Go byte slices built by the console formatter are modelled as `List Char`
  (all bytes the claims exercise are ASCII, where Go bytes and chars agree).
-/

/-- Modelled from the spec: the `Level` enumeration (`level.go`, not under
`src/`) — "an ordered enumeration (Debug < Trace < Info < Notice < Warn <
Error < Panic < Alert < Fatal)" used as a routing key and as display text. -/
inductive Level
  | Debug
  | Trace
  | Info
  | Notice
  | Warn
  | Error
  | Panic
  | Alert
  | Fatal
deriving DecidableEq, Repr

/-- Modelled from the spec: `Level.String()` (`level.go`, not under `src/`) —
levels have "a stable string name" used as display text; the spec's test
property §8 shows the Info level's name rendered as "INFO". -/
def levelString : Level → String
  | .Debug => "DEBUG"
  | .Trace => "TRACE"
  | .Info => "INFO"
  | .Notice => "NOTICE"
  | .Warn => "WARN"
  | .Error => "ERROR"
  | .Panic => "PANIC"
  | .Alert => "ALERT"
  | .Fatal => "FATAL"

/-- The dynamic type of a Go `interface{}` field value, limited to the cases
the console formatter's type switch distinguishes (src/log.go:477-504). -/
inductive FieldValue
  | str (s : String)
  | int (n : Int)
  | int8 (n : Int)
  | int16 (n : Int)
  | int32 (n : Int)
  | int64 (n : Int)
  | uint (n : Nat)
  | uint8 (n : Nat)
  | uint16 (n : Nat)
  | uint32 (n : Nat)
  | uint64 (n : Nat)
  | boolean (b : Bool)
  | other (rendered : String)
deriving DecidableEq, Repr

/-- `Field` — one key/value pair of structured context (`entry.go`, shape
given by the spec §3: `Key: string, Value: any`). -/
structure Field where
  Key : String
  Value : FieldValue
deriving DecidableEq, Repr

/-- A `time.Time` instant, represented (the standard library being external
to the repository) by the behaviour of its `Format` method. -/
structure GoTime where
  format : String → String

/-- `Entry` — one structured log event (spec §3): level, message, ordered
fields, timestamp, optional source location.  The completion counter
(`WG : sync.WaitGroup`) is not data; its operations appear in traces. -/
structure Entry where
  Level : Level
  Message : String
  Fields : List Field
  Timestamp : GoTime
  File : String
  Line : Int

/-- Modelled from the spec: `newEntry(level, message, fields)` (`entry.go`,
not under `src/`) — the facade "constructs an Entry (pulled from pool)" with
the given level, message and fields, stamped with the current time; the
current-time read is external, so the instant is passed explicitly. -/
def newEntry (now : GoTime) (lvl : Level) (msg : String) (fields : List Field) : Entry :=
  { Level := lvl, Message := msg, Fields := fields, Timestamp := now
    File := "", Line := 0 }

/-- One observable side effect of the core logger, in program order. -/
inductive Action
  | setCounter (k : Nat)
  | send (ch : Nat) (e : Entry)
  | wait
  | putField (f : Field)
  | putEntry
  | exit (code : Nat)
  | raise (msg : String)
  | runH (handlerId : Nat)

/-- The state of the `logger` struct that the claims depend on: the level
routing table (`channels LevelHandlerChannels`, src/log.go:23).  A Go map
lookup that misses is `none`. -/
structure LoggerState where
  channels : Level → Option (List Nat)

/-- `HandleEntry` (src/log.go:188-215) as the trace of effects it performs:
look up the level; if handler channels exist, `WG.Add(len(channels))`,
dereference the entry and send the copy to every channel in routing-list
order, then `WG.Wait()`; in every case reclaim each field and then the
entry to their pools. -/
def HandleEntry (st : LoggerState) (e : Entry) : List Action :=
  (match st.channels e.Level with
   | some channels =>
      Action.setCounter channels.length ::
        (channels.map (fun ch => Action.send ch e) ++ [Action.wait])
   | none => [])
  ++ (e.Fields.map (fun f => Action.putField f) ++ [Action.putEntry])

/-- `Fatal` (src/log.go:99-103): build the entry at Fatal level with the
rendered message and nil fields, dispatch it, then `exitFunc(1)`. -/
def Fatal (st : LoggerState) (now : GoTime) (rendered : String) : List Action :=
  HandleEntry st (newEntry now .Fatal rendered []) ++ [Action.exit 1]

/-- `Fatalf` (src/log.go:130-134): identical to `Fatal` once `fmt.Sprintf`
has rendered the message. -/
def Fatalf (st : LoggerState) (now : GoTime) (rendered : String) : List Action :=
  HandleEntry st (newEntry now .Fatal rendered []) ++ [Action.exit 1]

/-- `Panic` (src/log.go:137-142): build the entry at Error level with the
rendered message, dispatch it, then `panic(s)` with that same string. -/
def PanicL (st : LoggerState) (now : GoTime) (rendered : String) : List Action :=
  HandleEntry st (newEntry now .Error rendered []) ++ [Action.raise rendered]

/-- `Panicf` (src/log.go:145-150): identical to `Panic` once `fmt.Sprintf`
has rendered the message. -/
def PanicfL (st : LoggerState) (now : GoTime) (rendered : String) : List Action :=
  HandleEntry st (newEntry now .Error rendered []) ++ [Action.raise rendered]

/-- `WithFields` (src/log.go:183-185): `return newEntry(InfoLevel, "",
fields)` — the returned entry, paired with the (empty) trace of dispatch
effects the call performs. -/
def WithFields (now : GoTime) (fields : List Field) : Entry × List Action :=
  (newEntry now .Info "" fields, [])

/-- A registered `Handler` capability: `Run()` returns its input channel
(`runChan`); `id` identifies the handler in traces. -/
structure Handler where
  id : Nat
  runChan : Nat

/-- The body of the registration loop (src/log.go:223-231): fetch the
level's channel list (missing key = fresh empty list), append the channel,
store it back. -/
def addChannel (st : LoggerState) (lvl : Level) (ch : Nat) : LoggerState :=
  let channels := (st.channels lvl).getD []
  { channels := fun l => if l = lvl then some (channels ++ [ch]) else st.channels l }

/-- `RegisterHandler` (src/log.go:219-233): call `handler.Run()` once
(traced as `Action.runH`), then append the returned channel to the routing
list of every level named. -/
def RegisterHandler (st : LoggerState) (h : Handler) (levels : List Level) :
    LoggerState × List Action :=
  (levels.foldl (fun s lvl => addChannel s lvl h.runChan) st, [Action.runH h.id])

/-- The channels a trace sends to, in send order. -/
def sendTargets (tr : List Action) : List Nat :=
  tr.filterMap (fun a => match a with | .send ch _ => some ch | _ => none)

/-- Modelled from the spec: the `FilenameDisplay` constants of the log
package (`log.Lshortfile` / `log.Llongfile`, not under `src/`) — "how to
display source file (omit / short filename / full path minus a known
source-root prefix)". -/
inductive FilenameDisplay
  | Lshortfile
  | Llongfile
deriving DecidableEq, Repr

/-- The `Console` struct (console file, lines 276-286): the configuration
the claims depend on.  `writer` (an `io.Writer`), `colors` (opaque escape
sequences) and `formatFunc` (a function value) perform or produce external
effects and are not data the claims inspect; the formatter embedded below
is `defaultFormatFunc`'s non-colored branch. -/
structure Console where
  buffer : Nat
  numWorkers : Nat
  timestampFormat : String
  gopath : String
  fileDisplay : FilenameDisplay
  displayColor : Bool

/-- The default timestamp format (console file, `defaultTS`). -/
def defaultTS : String := "2006-01-02T15:04:05.000000000Z07:00"

/-- `New` (console file, lines 302-316): the default console configuration. -/
def Console.New : Console :=
  { buffer := 0, numWorkers := 1, timestampFormat := defaultTS,
    gopath := "", fileDisplay := .Lshortfile, displayColor := true }

/-- `SetFilenameDisplay` (console file, lines 319-321). -/
def Console.SetFilenameDisplay (c : Console) (fd : FilenameDisplay) : Console :=
  { c with fileDisplay := fd }

/-- `DisplayColor` (console file, lines 325-327). -/
def Console.DisplayColor (c : Console) (color : Bool) : Console :=
  { c with displayColor := color }

/-- `SetTimestampFormat` (console file, lines 331-333). -/
def Console.SetTimestampFormat (c : Console) (format : String) : Console :=
  { c with timestampFormat := format }

/-- An external side effect of a console configuration call: a line printed
via the standard library `log` package, or a warning emitted through the
logging facade (`log.Warn`). -/
inductive ConsoleEffect
  | stdlogPrint (s : String)
  | facadeWarn (s : String)
deriving DecidableEq, Repr

/-- `SetBuffersAndWorkers` (console file, lines 343-355): store the buffer
size; if the requested worker count is zero, print a diagnostic through
`stdlog.Println` and `log.Warn` and use 1 instead; store the worker count. -/
def Console.SetBuffersAndWorkers (c : Console) (size workers : Nat) :
    Console × List ConsoleEffect :=
  let c := { c with buffer := size }
  let p : Nat × List ConsoleEffect :=
    if workers = 0 then
      (1, [ConsoleEffect.stdlogPrint "Invalid number of workers specified, setting to 1",
           ConsoleEffect.facadeWarn "Invalid number of workers specified, setting to 1"])
    else (workers, [])
  ({ c with numWorkers := p.1 }, p.2)

/-- The goroutine-spawning loop of `Run` (console file, line 379):
`for i := 0; i <= int(c.numWorkers); i++ { go c.handleLog(ch) }`, counting
the goroutines it starts (each runs `handleLog`, which obtains its own
Formatter by calling `c.formatFunc()` once). -/
def spawnCount (numWorkers : Nat) (i : Nat) : Nat :=
  if h : i ≤ numWorkers then spawnCount numWorkers (i + 1) + 1 else 0
termination_by numWorkers + 1 - i
decreasing_by omega

/-- What `Run` produces: the input channel's buffer capacity and the number
of consumption goroutines started on it. -/
structure RunResult where
  chanBuffer : Nat
  goroutines : Nat
deriving DecidableEq, Repr

/-- `Run` (console file, lines 364-384): in long-file mode resolve the
source-root prefix from the GOPATH environment value (an external read,
passed explicitly; `os.PathSeparator` rendered as `/`), then allocate the
channel with the configured buffer size and start the consumption
goroutines. -/
def Console.Run (c : Console) (gopathEnv : String) : Console × RunResult :=
  let c :=
    if c.fileDisplay = FilenameDisplay.Llongfile then
      let g := gopathEnv
      let g := if g.length ≠ 0 then g ++ "/" ++ "src" ++ "/" else g
      { c with gopath := g }
    else c
  (c, { chanBuffer := c.buffer, goroutines := spawnCount c.numWorkers 0 })

/-- The short-filename trimming loop of `defaultFormatFunc` (console file,
lines 536-541 plain / 440-445 colored): scan `i` from `len(file)-1` down
while `i > 0`; at the first `/` found, keep the suffix after it and stop. -/
def shortFileAux (file : List Char) : Nat → List Char
  | 0 => file
  | i + 1 => if file.get? (i + 1) = some '/' then file.drop (i + 2) else shortFileAux file i

/-- Entry point of the trimming loop: the scan starts at index
`len(file) - 1` (and the loop body never runs at index 0). -/
def shortFile (file : List Char) : List Char :=
  shortFileAux file (file.length - 1)

/-- The field-value arm of the formatter's type switch (console file, lines
569-596): base-10 rendering for all integer kinds, `true`/`false` for
booleans, raw bytes for strings, and the `fmt.Sprintf("%v", ...)` fallback
(external rendering, carried by `FieldValue.other`). -/
def renderValue : FieldValue → List Char
  | .str s => s.data
  | .int n => (toString n).data
  | .int8 n => (toString n).data
  | .int16 n => (toString n).data
  | .int32 n => (toString n).data
  | .int64 n => (toString n).data
  | .uint n => (toString n).data
  | .uint8 n => (toString n).data
  | .uint16 n => (toString n).data
  | .uint32 n => (toString n).data
  | .uint64 n => (toString n).data
  | .boolean b => (if b then "true" else "false").data
  | .other rendered => rendered.data

/-- The plain (non-colored) Formatter returned by `defaultFormatFunc`
(console file, lines 513-602), building the output byte buffer: timestamp,
space, the level name preceded by `6 - len(lvl)` padding spaces, space,
then either the message alone (`Line == 0`) or `file:line message`; then
` key=value` per field; then a newline. -/
def Console.defaultFormatPlain (c : Console) (e : Entry) : List Char :=
  let b : List Char := []
  let b :=
    if e.Line = 0 then
      let b := b ++ (e.Timestamp.format c.timestampFormat).data
      let b := b ++ [' ']
      let lvl := levelString e.Level
      let b := b ++ List.replicate (6 - lvl.length) ' '
      let b := b ++ lvl.data
      let b := b ++ [' ']
      b ++ e.Message.data
    else
      let file := e.File.data
      let file :=
        if c.fileDisplay = FilenameDisplay.Lshortfile then shortFile file
        else file.drop c.gopath.length
      let b := b ++ (e.Timestamp.format c.timestampFormat).data
      let b := b ++ [' ']
      let lvl := levelString e.Level
      let b := b ++ List.replicate (6 - lvl.length) ' '
      let b := b ++ lvl.data
      let b := b ++ [' ']
      let b := b ++ file
      let b := b ++ [':']
      let b := b ++ (toString e.Line).data
      let b := b ++ [' ']
      b ++ e.Message.data
  let b := e.Fields.foldl
    (fun b f => b ++ [' '] ++ f.Key.data ++ ['='] ++ renderValue f.Value) b
  b ++ ['\n']

/-! ## Helper lemmas -/

theorem handleEntry_eq_of_some (st : LoggerState) (e : Entry) (chs : List Nat)
    (h : st.channels e.Level = some chs) :
    HandleEntry st e =
      Action.setCounter chs.length ::
        (chs.map (fun ch => Action.send ch e) ++
          Action.wait :: (e.Fields.map (fun f => Action.putField f) ++ [Action.putEntry])) := by
  simp [HandleEntry, h]

theorem handleEntry_eq_of_none (st : LoggerState) (e : Entry)
    (h : st.channels e.Level = none) :
    HandleEntry st e = e.Fields.map (fun f => Action.putField f) ++ [Action.putEntry] := by
  simp [HandleEntry, h]

theorem registerChannels_foldl (ch : Nat) (levels : List Level) :
    ∀ (st : LoggerState) (l : Level),
      ((levels.foldl (fun s lvl => addChannel s lvl ch) st).channels l) =
        if l ∈ levels then
          some (((st.channels l).getD []) ++ List.replicate (levels.count l) ch)
        else st.channels l := by
  induction levels with
  | nil => intro st l; simp
  | cons v rest ih =>
    intro st l
    simp only [List.foldl_cons]
    rw [ih]
    by_cases hlv : l = v
    · subst hlv
      by_cases hmem : l ∈ rest
      · rw [if_pos hmem, if_pos (List.mem_cons_self l rest)]
        simp [addChannel, List.count_cons, List.replicate_succ, List.append_assoc]
      · rw [if_neg hmem, if_pos (List.mem_cons_self l rest)]
        simp [addChannel, List.count_cons, List.count_eq_zero.mpr hmem, List.replicate_succ]
    · have h2 : (addChannel st v ch).channels l = st.channels l := by
        simp [addChannel, hlv]
      by_cases hmem : l ∈ rest
      · rw [if_pos hmem, if_pos (List.mem_cons_of_mem v hmem)]
        rw [h2]
        simp [List.count_cons, hlv]
      · rw [if_neg hmem, h2, if_neg (by simp [hlv, hmem])]

/-! ## Concrete sample data used by witnesses -/

def tSample : GoTime := ⟨fun _ => "2026-01-01T00:00:00Z"⟩

def fldSample : Field := ⟨"port", .int 8080⟩

def stSample : LoggerState :=
  ⟨fun l => if l = Level.Info then some [7, 9]
    else if l = Level.Fatal then some [3] else none⟩

def eSample : Entry := newEntry tSample .Info "started" [fldSample]

def eSample2 : Entry := newEntry tSample .Debug "dbg" [fldSample]

/-! ## Claims -/

/-- C1: for every Entry dispatched by `HandleEntry` to `K` matching handler
channels, the completion counter is set to `K` (`WG.Add`) before any send,
and the Entry and its Fields are returned to their pools only after all `K`
recipients have signalled completion (the `wait` barrier precedes every
pool `Put` in the trace). -/
theorem handleEntry_barrier_before_reclaim (st : LoggerState) (e : Entry)
    (chs : List Nat) (K : Nat) (hch : st.channels e.Level = some chs)
    (hK : chs.length = K) :
    HandleEntry st e =
      Action.setCounter K ::
        (chs.map (fun ch => Action.send ch e) ++
          Action.wait :: (e.Fields.map (fun f => Action.putField f) ++ [Action.putEntry])) := by
  subst hK
  exact handleEntry_eq_of_some st e chs hch

theorem handleEntry_barrier_before_reclaim_witness :
    stSample.channels eSample.Level = some [7, 9] ∧ ([7, 9] : List Nat).length = 2 ∧
      HandleEntry stSample eSample =
        [Action.setCounter 2, Action.send 7 eSample, Action.send 9 eSample,
         Action.wait, Action.putField fldSample, Action.putEntry] :=
  ⟨rfl, rfl, handleEntry_barrier_before_reclaim stSample eSample [7, 9] 2 rfl rfl⟩

/-- C2: for every Entry whose Level has no registered handler channel,
`HandleEntry` skips delivery entirely — its trace contains no send and no
wait — and still returns every Field to the Field pool and the Entry to the
Entry pool before returning. -/
theorem handleEntry_no_listener (st : LoggerState) (e : Entry)
    (h : st.channels e.Level = none) :
    HandleEntry st e = e.Fields.map (fun f => Action.putField f) ++ [Action.putEntry] ∧
      ∀ a ∈ HandleEntry st e, (∀ ch e2, a ≠ Action.send ch e2) ∧ a ≠ Action.wait := by
  have h1 := handleEntry_eq_of_none st e h
  refine ⟨h1, ?_⟩
  intro a ha
  rw [h1] at ha
  rcases List.mem_append.mp ha with hm | hm
  · rcases List.mem_map.mp hm with ⟨f, _, rfl⟩
    exact ⟨fun ch e2 => by simp, by simp⟩
  · rw [List.mem_singleton] at hm
    subst hm
    exact ⟨fun ch e2 => by simp, by simp⟩

theorem handleEntry_no_listener_witness :
    stSample.channels eSample2.Level = none ∧
      HandleEntry stSample eSample2 = [Action.putField fldSample, Action.putEntry] :=
  ⟨rfl, (handleEntry_no_listener stSample eSample2 rfl).1⟩

/-- C3: `Fatal` and `Fatalf` terminate the process with the non-zero status
1 via the exit function, and only after `HandleEntry` has returned: in the
trace the `exit 1` action follows the whole dispatch, in particular the
`wait` barrier at which every registered Fatal-level handler has
acknowledged the event. -/
theorem fatal_exit_after_dispatch (st : LoggerState) (now : GoTime) (msg : String)
    (chs : List Nat) (hch : st.channels Level.Fatal = some chs) :
    Fatal st now msg = HandleEntry st (newEntry now .Fatal msg []) ++ [Action.exit 1] ∧
    Fatalf st now msg = Fatal st now msg ∧
    Fatal st now msg =
      Action.setCounter chs.length ::
        (chs.map (fun ch => Action.send ch (newEntry now .Fatal msg [])) ++
          Action.wait :: [Action.putEntry, Action.exit 1]) ∧
    (1 : Nat) ≠ 0 := by
  refine ⟨rfl, rfl, ?_, one_ne_zero⟩
  have h1 := handleEntry_eq_of_some st (newEntry now .Fatal msg []) chs hch
  show HandleEntry st (newEntry now .Fatal msg []) ++ [Action.exit 1] = _
  rw [h1]
  simp [newEntry, List.append_assoc]

theorem fatal_exit_after_dispatch_witness :
    stSample.channels Level.Fatal = some [3] ∧
      Fatal stSample tSample "boom" =
        [Action.setCounter 1, Action.send 3 (newEntry tSample .Fatal "boom" []),
         Action.wait, Action.putEntry, Action.exit 1] :=
  ⟨rfl, (fatal_exit_after_dispatch stSample tSample "boom" [3] rfl).2.2.1⟩

/-- C6: `Panic` and `Panicf` construct an Entry at Error level carrying the
rendered message, dispatch it through `HandleEntry`, and only after the
dispatch trace is complete raise a panic whose value is exactly that
rendered message string. -/
theorem panic_raise_after_dispatch (st : LoggerState) (now : GoTime) (s : String) :
    (newEntry now .Error s []).Level = Level.Error ∧
    (newEntry now .Error s []).Message = s ∧
    PanicL st now s = HandleEntry st (newEntry now .Error s []) ++ [Action.raise s] ∧
    PanicfL st now s = PanicL st now s :=
  ⟨rfl, rfl, rfl, rfl⟩

/-- C7: `RegisterHandler(handler, levels...)` calls `handler.Run()` exactly
once, appends the single returned channel to the routing list of every
level named (once per occurrence, so the same channel may appear under
multiple levels), leaves other levels untouched; and within each level the
routing list order is exactly the channel-send order `HandleEntry` uses. -/
theorem registerHandler_spec (st : LoggerState) (h : Handler) (levels : List Level) :
    (RegisterHandler st h levels).2 = [Action.runH h.id] ∧
    (∀ l : Level,
      ((RegisterHandler st h levels).1.channels l) =
        if l ∈ levels then
          some (((st.channels l).getD []) ++ List.replicate (levels.count l) h.runChan)
        else st.channels l) ∧
    (∀ (st2 : LoggerState) (e : Entry),
      sendTargets (HandleEntry st2 e) = (st2.channels e.Level).getD []) := by
  refine ⟨rfl, fun l => registerChannels_foldl h.runChan levels st l, ?_⟩
  intro st2 e
  cases h2 : st2.channels e.Level with
  | none => simp [HandleEntry, h2, sendTargets]
  | some chs =>
    simp [HandleEntry, h2, sendTargets, List.filterMap_append, List.filterMap_map,
      Function.comp_def, List.filterMap_cons]

/-- C9: `WithFields(fields...)` returns an Entry at Info level with an
empty message whose Fields are exactly the given fields, and performs no
dispatch (its effect trace is empty — the fields are attached now, not
deferred to a later level call). -/
theorem withFields_immediate_info_entry (now : GoTime) (fields : List Field) :
    (WithFields now fields).1.Level = Level.Info ∧
    (WithFields now fields).1.Message = "" ∧
    (WithFields now fields).1.Fields = fields ∧
    (WithFields now fields).2 = [] :=
  ⟨rfl, rfl, rfl, rfl⟩

theorem spawnCount_eq (n : Nat) : ∀ k i, n + 1 - i = k → spawnCount n i = k := by
  intro k
  induction k with
  | zero => intro i hk; rw [spawnCount, dif_neg (by omega)]
  | succ k ih =>
    intro i hk
    rw [spawnCount, dif_pos (by omega : i ≤ n), ih (i + 1) (by omega)]

/-- C4: code bug — `Run` allocates the channel with the configured buffer
size, but its loop `for i := 0; i <= int(c.numWorkers); i++` starts
`numWorkers + 1` consumption goroutines, one more than the configured
worker count (`numWorkers`, which `New` defaults to 1 and
`SetBuffersAndWorkers` documents as the number of workers). -/
theorem console_run_goroutine_count :
    (∀ (c : Console) (env : String),
      (c.Run env).2.chanBuffer = c.buffer ∧
      (c.Run env).2.goroutines = c.numWorkers + 1) ∧
    Console.New.numWorkers = 1 ∧
    (Console.New.Run "").2.goroutines = 2 := by
  have hs : ∀ m : Nat, spawnCount m 0 = m + 1 := fun m => spawnCount_eq m (m + 1) 0 (by omega)
  refine ⟨?_, rfl, ?_⟩
  · intro c env
    constructor
    · unfold Console.Run
      by_cases h : c.fileDisplay = FilenameDisplay.Llongfile <;> simp [h]
    · unfold Console.Run
      by_cases h : c.fileDisplay = FilenameDisplay.Llongfile <;> simp [h, hs]
  · show spawnCount Console.New.numWorkers 0 = 2
    rw [hs]
    rfl

/-- C8: `SetBuffersAndWorkers` always stores the buffer size; a worker
count of zero is corrected locally to the safe minimum 1 with a diagnostic
warning emitted through the logging facade (`log.Warn`), any non-zero
worker count is stored unchanged, and the call's only effects are those two
diagnostic prints — it has no failure or process-termination effect. -/
theorem setBuffersAndWorkers_corrects_zero (c : Console) (size workers : Nat) :
    (c.SetBuffersAndWorkers size workers).1.buffer = size ∧
    (c.SetBuffersAndWorkers size workers).1.numWorkers =
      (if workers = 0 then 1 else workers) ∧
    (c.SetBuffersAndWorkers size workers).2 =
      (if workers = 0 then
        [ConsoleEffect.stdlogPrint "Invalid number of workers specified, setting to 1",
         ConsoleEffect.facadeWarn "Invalid number of workers specified, setting to 1"]
       else []) ∧
    ConsoleEffect.facadeWarn "Invalid number of workers specified, setting to 1" ∈
      (c.SetBuffersAndWorkers size 0).2 := by
  unfold Console.SetBuffersAndWorkers
  by_cases h : workers = 0 <;> simp [h]

/-! Fixed inputs of the formatting claim: the plain (non-colored) default
formatter with timestamp format `2006-01-02T15:04:05Z`, applied to the
Entry with Level Info, Message "started", one field `port = 8080`, no
source location. -/

def cPlain : Console :=
  (Console.New.DisplayColor false).SetTimestampFormat "2006-01-02T15:04:05Z"

def eC5 (t : GoTime) : Entry :=
  { Level := .Info, Message := "started", Fields := [⟨"port", .int 8080⟩],
    Timestamp := t, File := "", Line := 0 }

def tC5 : GoTime := ⟨fun _ => "TS"⟩

/-- C5 counterexample: at the concrete timestamp rendering "TS" the plain
formatter's output is not the claimed
`ts ++ " " ++ "INFO  " ++ " " ++ "started" ++ " port=8080" ++ "\n"` —
the padding spaces precede the level name, they do not follow it. -/
theorem c5_claimed_layout_false :
    Console.defaultFormatPlain cPlain (eC5 tC5) ≠
      (tC5.format "2006-01-02T15:04:05Z").data ++
        (" " ++ "INFO  " ++ " " ++ "started" ++ " port=8080" ++ "\n").data := by
  decide

/-- C5 (amended): for the fixed Entry the plain formatter's output equals
the formatted timestamp, a space, the level name left-padded with spaces to
width 6 (so `"  INFO"`, right-aligned), a space, "started", " port=8080",
and a trailing newline. -/
theorem c5_amended_layout (t : GoTime) :
    Console.defaultFormatPlain cPlain (eC5 t) =
      (t.format "2006-01-02T15:04:05Z").data ++
        (" " ++ "  INFO" ++ " " ++ "started" ++ " port=8080" ++ "\n").data := by
  have key : ∀ (p A B : List Char), A = B → p ++ A = p ++ B := by
    intro p A B hh; rw [hh]
  simp only [Console.defaultFormatPlain, cPlain, eC5, Console.New, Console.DisplayColor,
    Console.SetTimestampFormat, levelString, renderValue, List.foldl,
    List.nil_append, List.append_assoc, reduceIte]
  exact key _ _ _ (by decide)

theorem shortFileAux_id (file : List Char) :
    ∀ n, (∀ i, 0 < i → i ≤ n → file.get? i ≠ some '/') → shortFileAux file n = file := by
  intro n
  induction n with
  | zero => intro _; rfl
  | succ n ih =>
    intro h
    rw [shortFileAux, if_neg (h (n + 1) (by omega) (le_refl _))]
    exact ih fun i hi hin => h i hi (by omega)

theorem shortFileAux_drop (file : List Char) :
    ∀ n j, 0 < j → j ≤ n → file.get? j = some '/' →
      (∀ k, j < k → k ≤ n → file.get? k ≠ some '/') →
      shortFileAux file n = file.drop (j + 1) := by
  intro n
  induction n with
  | zero => intro j hj hjn _ _; omega
  | succ n ih =>
    intro j hj hjn hsl hk
    by_cases hjtop : j = n + 1
    · subst hjtop
      rw [shortFileAux, if_pos hsl]
    · rw [shortFileAux, if_neg (hk (n + 1) (by omega) (le_refl _))]
      exact ih j hj (by omega) hsl fun k hk1 hk2 => hk k hk1 (by omega)

/-- C10: the short-filename mode trims the path to the substring after the
last `/` found at an index strictly greater than 0; consequently a path
whose only `/` is at index 0 and a path with no `/` at all are displayed
unchanged. -/
theorem shortFile_trims_after_last_positive_slash :
    (∀ file : List Char,
      (∀ i, i < file.length → 0 < i → file.get? i ≠ some '/') →
      shortFile file = file) ∧
    (∀ (file : List Char) (j : Nat), 0 < j → file.get? j = some '/' →
      (∀ k, k < file.length → j < k → file.get? k ≠ some '/') →
      shortFile file = file.drop (j + 1)) := by
  constructor
  · intro file h
    exact shortFileAux_id file _ fun i hi hin => h i (by omega) hi
  · intro file j hj hsl hk
    have hjlen : j < file.length := by
      rcases List.get?_eq_some.mp hsl with ⟨hlt, _⟩
      exact hlt
    exact shortFileAux_drop file _ j hj (by omega) hsl
      fun k hk1 hk2 => hk k (by omega) hk1

theorem shortFile_trims_witness :
    shortFile "/main.go".data = "/main.go".data ∧
      shortFile "a/b.go".data = ("a/b.go".data).drop 2 :=
  ⟨shortFile_trims_after_last_positive_slash.1 _ (by decide),
   shortFile_trims_after_last_positive_slash.2 _ 1 (by decide) (by decide) (by decide)⟩

end GoLog
